import Mathlib

/-!
Verification development for the modus plugin runtime.

Shallow embedding of:
- the GraphQL data source (`transformValue`, `transformErrors`, `transformError`,
  the unknown-function path of `callFunction` / `writeGraphQLResponse`),
- the vector collection subsystem (`UpsertToCollection` key/label handling,
  `validateEmbedder`, `SearchCollection` merge/sort/truncate, `NnClassify`),
- the AssemblyScript marshaling pin/unpin discipline (`writeClass`, `writeArray`).

Distances and confidences are modelled over `ℚ` (the Go code uses float64; the
statements proved here are about the exact real-valued semantics of the same
arithmetic).  Guest pointers are modelled as `Nat`.
-/

namespace Modus

/-- A GraphQL selection template.  Modelled from the spec: `TemplateField` =
`{"name": string, "alias"?: string, "fields"?: [TemplateField]}` (the concrete
`templateField` struct of the datasource package is not among the provided
source files; an absent alias is the empty string). -/
inductive TemplateField where
  | mk (name : String) (aliasName : String) (fields : List TemplateField)

def TemplateField.name : TemplateField → String
  | .mk n _ _ => n

def TemplateField.aliasName : TemplateField → String
  | .mk _ a _ => a

def TemplateField.fields : TemplateField → List TemplateField
  | .mk _ _ fs => fs

/-- Modelled from the spec: `aliasOrName` selects the alias when present,
otherwise the name. -/
def TemplateField.aliasOrName (tf : TemplateField) : String :=
  if tf.aliasName = "" then tf.name else tf.aliasName

/-- JSON values, as the AST underlying the byte-level `jsonparser` access used
by `transformValue`.  Numbers are kept as their raw token text, as
`jsonparser` does. -/
inductive Json where
  | null
  | bool (b : Bool)
  | num (raw : String)
  | str (s : String)
  | arr (elems : List Json)
  | obj (fields : List (String × Json))

mutual

/-- The raw bytes of a JSON value, as `jsonparser` sees them in the incoming
`[]byte` (compact form; strings of this development need no escaping).  Used
for the pass-through of a childless template, where the Go code returns the
data bytes unchanged. -/
def renderJson : Json → String
  | Json.null => "null"
  | Json.bool true => "true"
  | Json.bool false => "false"
  | Json.num raw => raw
  | Json.str s => "\"" ++ s ++ "\""
  | Json.arr l => "[" ++ renderJsonElems l ++ "]"
  | Json.obj m => "\x7b" ++ renderJsonFields m ++ "\x7d"
termination_by j => sizeOf j
decreasing_by
  all_goals simp only [Json.arr.sizeOf_spec, Json.obj.sizeOf_spec]
  all_goals omega

/-- Comma-separated raw array elements. -/
def renderJsonElems : List Json → String
  | [] => ""
  | x :: xs =>
    renderJson x ++ (match xs with | [] => "" | _ :: _ => ",") ++ renderJsonElems xs
termination_by l => sizeOf l
decreasing_by
  all_goals simp only [List.cons.sizeOf_spec]
  all_goals omega

/-- Comma-separated raw object fields. -/
def renderJsonFields : List (String × Json) → String
  | [] => ""
  | (k, v) :: ps =>
    "\"" ++ k ++ "\":" ++ renderJson v
      ++ (match ps with | [] => "" | _ :: _ => ",") ++ renderJsonFields ps
termination_by m => sizeOf m
decreasing_by
  all_goals simp only [List.cons.sizeOf_spec, Prod.mk.sizeOf_spec]
  all_goals omega

end

/-- `jsonparser.Get(data, name)`: case-sensitive lookup of the first field with
the given name; a missing key is an error. -/
def lookupField (m : List (String × Json)) (name : String) : Except String Json :=
  match m.find? (fun p => p.1 = name) with
  | some p => Except.ok p.2
  | none => Except.error "Key path not found"

mutual

/-- `transformValue` of the datasource package, modelling the byte buffer it
builds.  A childless template returns the value's bytes unchanged (the
`len(data) == 0` fast path has no AST counterpart; the string re-quoting via
`json.Marshal` reproduces the quotes `jsonparser.Get` strips, so it is
absorbed by `renderJson`).  For an object, the template's children are
emitted in order as `"aliasOrName":value` with a comma before every field but
the first; a lookup or child failure aborts the whole call with that error.
Anything that is neither object nor array fails with
`expected object or array`. -/
def transformValue (j : Json) (tf : TemplateField) : Except String String :=
  if tf.fields.isEmpty then Except.ok (renderJson j)
  else
    match j with
    | Json.obj m =>
      (transformFields m tf.fields true).map fun body => "\x7b" ++ body ++ "\x7d"
    | Json.arr l => Except.ok ("[" ++ transformElems l tf "" ++ "]")
    | _ => Except.error "expected object or array"
termination_by (sizeOf tf, sizeOf j)
decreasing_by
  all_goals
    first
      | (apply Prod.Lex.right
         simp only [List.cons.sizeOf_spec, Json.arr.sizeOf_spec, Json.obj.sizeOf_spec]
         omega)
      | (apply Prod.Lex.left
         first
           | (cases tf
              simp only [TemplateField.fields, TemplateField.mk.sizeOf_spec]
              omega)
           | (simp only [List.cons.sizeOf_spec]
              omega))

/-- The field loop of `transformValue`'s object case; the boolean tracks
whether the field is the first one (`i > 0` writes a comma in the source). -/
def transformFields (m : List (String × Json)) :
    List TemplateField → Bool → Except String String
  | [], _ => Except.ok ""
  | f :: fs, isFirst =>
    match lookupField m f.name with
    | Except.error e => Except.error e
    | Except.ok v =>
      match transformValue v f with
      | Except.error e => Except.error e
      | Except.ok s =>
        match transformFields m fs false with
        | Except.error e => Except.error e
        | Except.ok rest =>
          Except.ok ((if isFirst then "" else ",")
            ++ "\"" ++ f.aliasOrName ++ "\":" ++ s ++ rest)
termination_by fs b => (sizeOf fs, sizeOf m)
decreasing_by
  all_goals
    first
      | (apply Prod.Lex.right
         simp only [List.cons.sizeOf_spec, Json.arr.sizeOf_spec, Json.obj.sizeOf_spec]
         omega)
      | (apply Prod.Lex.left
         first
           | (cases tf
              simp only [TemplateField.fields, TemplateField.mk.sizeOf_spec]
              omega)
           | (simp only [List.cons.sizeOf_spec]
              omega))

/-- The `jsonparser.ArrayEach` loop of `transformValue`'s array case, with
`acc` the buffer contents after the opening bracket (`buf.Len() > 1` iff
`acc ≠ ""`).  The callback writes the comma separator BEFORE attempting the
element transform and returns early from the closure on failure — so a
failing element is dropped, but the comma written for it survives in the
output (which is then not valid JSON). -/
def transformElems (l : List Json) (tf : TemplateField) (acc : String) : String :=
  match l with
  | [] => acc
  | x :: xs =>
    let acc2 := if acc = "" then acc else acc ++ ","
    match transformValue x tf with
    | Except.ok v => transformElems xs tf (acc2 ++ v)
    | Except.error _ => transformElems xs tf acc2
termination_by (sizeOf tf, sizeOf l)
decreasing_by
  all_goals
    apply Prod.Lex.right
  all_goals
    simp only [List.cons.sizeOf_spec]
  all_goals
    omega

end

/-- One emitted object field, from the spec's words: the quoted alias-or-name,
a colon, and the shaped value. -/
def renderFieldEntry (p : String × String) : String :=
  "\"" ++ p.1 ++ "\":" ++ p.2

/-- Object fields each preceded by a comma separator. -/
def renderAllFields (ps : List (String × String)) : String :=
  (ps.map fun p => "," ++ renderFieldEntry p).foldr (· ++ ·) ""

/-- Spec rendering of an object body: exactly the given fields, in order,
comma-separated. -/
def renderObjectBody (ps : List (String × String)) : String :=
  match ps with
  | [] => ""
  | p :: rest => renderFieldEntry p ++ renderAllFields rest

/-- The spec's object law as a function: exactly the template's children in
declaration order, keyed by each child's alias-or-name, each value looked up
by `name` and recursively shaped; the first failure is surfaced. -/
def transformFieldsSpec (m : List (String × Json)) (fs : List TemplateField) :
    Except String (List (String × String)) :=
  fs.foldr
    (fun f acc =>
      (lookupField m f.name).bind fun v =>
        (transformValue v f).bind fun s =>
          acc.map fun ps => (f.aliasOrName, s) :: ps)
    (Except.ok [])

/-- The array-buffer contribution of the remaining elements once something is
already in the buffer: every element contributes a comma, plus its shaped
bytes when it succeeded. -/
def arrayTail (os : List (Option String)) : String :=
  (os.map fun o => "," ++ o.getD "").foldr (· ++ ·) ""

/-- The array-buffer contents built from the empty buffer: elements that
write nothing (failures, or empty renderings) leave the buffer empty so no
comma precedes the next element; from the first non-empty write on, every
element contributes a comma — in particular a failure after a success leaves
a stray comma. -/
def arrayBody (os : List (Option String)) : String :=
  match os with
  | [] => ""
  | none :: rest => arrayBody rest
  | some v :: rest => if v = "" then arrayBody rest else v ++ arrayTail rest

/-! ### Output-buffer line parsing (`transformErrors` / `transformError`) -/

/-- Helper for `leadsWith`, recursing on the pattern so that an exhausted
pattern reduces even when the scanned list is abstract. -/
def leadsWithAux : List Char → List Char → Bool
  | [], _ => true
  | _ :: _, [] => false
  | p :: ps, c :: cs => p = c && leadsWithAux ps cs

/-- Does `s` start with `pat`? -/
def leadsWith (s pat : List Char) : Bool :=
  leadsWithAux pat s

/-- `strings.Index`: index of the first occurrence of `sep` in `s`, if any. -/
def findSepIdx (sep : List Char) : List Char → Option Nat
  | [] => none
  | c :: cs => if leadsWith (c :: cs) sep then some 0 else (findSepIdx sep cs).map (· + 1)

/-- The separator `": "` used by `transformError`. -/
def sepChars : List Char := [':', ' ']

/-- `strings.SplitAfterN(s, ": ", 2)`: split after the first occurrence of
`": "`, keeping the separator attached to the first part. -/
def splitAfterN2 (s : List Char) : List (List Char) :=
  match findSepIdx sepChars s with
  | none => [s]
  | some i => [s.take (i + 2), s.drop (i + 2)]

/-- One emitted GraphQL error: message, path, and the optional `level`
extension (`none` models an error without an `extensions` object). -/
structure GraphQLErrorModel where
  Message : List Char
  Path : List String
  Level : Option String
deriving DecidableEq

/-- `transformError`: split the line after the first `": "`; if the part up to
and including the separator is one of the five recognized prefixes, the message
is the rest of the line and the level extension is set; otherwise the whole
line is the message and there is no extension.  `pathName` is
`ci.Function.AliasOrName()`. -/
def transformError (pathName : String) (msg : List Char) : GraphQLErrorModel :=
  match splitAfterN2 msg with
  | [p, rest] =>
    if p = "Debug: ".data then ⟨rest, [pathName], some "debug"⟩
    else if p = "Info: ".data then ⟨rest, [pathName], some "info"⟩
    else if p = "Warning: ".data then ⟨rest, [pathName], some "warning"⟩
    else if p = "Error: ".data then ⟨rest, [pathName], some "error"⟩
    else if p = "abort: ".data then ⟨rest, [pathName], some "fatal"⟩
    else ⟨msg, [pathName], none⟩
  | _ => ⟨msg, [pathName], none⟩

/-- `strings.Split(s, "\n")`. -/
def splitLines : List Char → List (List Char)
  | [] => [[]]
  | c :: cs =>
    match splitLines cs with
    | [] => [[]]
    | l :: ls => if c = '\n' then [] :: l :: ls else (c :: l) :: ls

/-- `transformErrors`: one GraphQL error per non-empty line of the captured
buffer. -/
def transformErrors (pathName : String) (buf : List Char) : List GraphQLErrorModel :=
  ((splitLines buf).filter (fun l => !l.isEmpty)).map (transformError pathName)

/-! ### The unknown-function error path (`callFunction` / `writeGraphQLResponse`) -/

mutual

/-- Go `fmt` `%s` formatting of a `templateField` struct value (it has no
`String()` method): `\x7bName Alias Fields\x7d` with each field
`%s`-formatted. -/
def goFmtTemplateField (tf : TemplateField) : String :=
  match tf with
  | .mk n a inner => "\x7b" ++ n ++ " " ++ a ++ " " ++ goFmtTemplateFieldList inner ++ "\x7d"

/-- Go `fmt` `%s` formatting of a `[]templateField` value: space-separated
elements inside brackets; a nil/empty slice prints as `[]`. -/
def goFmtTemplateFieldList (fs : List TemplateField) : String :=
  "[" ++ String.intercalate " " (goFmtTemplateFieldItems fs) ++ "]"

/-- The `%s` renderings of the slice elements, in order. -/
def goFmtTemplateFieldItems : List TemplateField → List String
  | [] => []
  | tf :: rest => goFmtTemplateField tf :: goFmtTemplateFieldItems rest

end

/-- The lookup step of `callFunction`: an unregistered `fn.name` produces
`fmt.Errorf("no function registered named %s", callInfo.Function)` — note the
format argument is the whole `templateField` value, not its name. -/
def callFunctionLookupError (registered : List String) (fn : TemplateField) : Option String :=
  if registered.contains fn.name then none
  else some ("no function registered named " ++ goFmtTemplateField fn)

/-- JSON for one GraphQL error with a string path element and `level: "error"`,
as marshalled by `writeGraphQLResponse` (shape as in the spec's example; the
message here needs no JSON escaping). -/
def graphQLErrorJson (message pathElem : String) : String :=
  "\x7b\"message\":\"" ++ message ++ "\",\"path\":[\"" ++ pathElem
    ++ "\"],\"extensions\":\x7b\"level\":\"error\"\x7d\x7d"

/-- `writeGraphQLResponse` when the function call failed and produced no
result: only the errors array is emitted. -/
def errorsOnlyResponse (message pathElem : String) : String :=
  "\x7b\"errors\":[" ++ graphQLErrorJson message pathElem ++ "]\x7d"

/-- The `Load` outcome for an input whose `fn.name` is not registered: the
lookup error becomes the single GraphQL error, at path `[fn.aliasOrName]`. -/
def loadUnknownFunctionResponse (registered : List String) (fn : TemplateField) : Option String :=
  match callFunctionLookupError registered fn with
  | none => none
  | some msg => some (errorsOnlyResponse msg fn.aliasOrName)

/-! ### Embedder signature validation (`validateEmbedder`) -/

/-- `metadata.Parameter` (only the fields `validateEmbedder` uses; the Go
field is `Type`, lower-cased here because `Type` is reserved in Lean). -/
structure Parameter where
  name : String
  type : String
deriving DecidableEq

/-- `metadata.Result`. -/
structure ResultType where
  type : String
deriving DecidableEq

/-- `metadata.Function`: name, parameters and results. -/
structure FunctionSig where
  name : String
  parameters : List Parameter
  results : List ResultType

/-- The language type info interface used by `validateEmbedder`
(`IsArrayType`, `IsStringType`, `IsFloatType`, `GetArraySubtype`). -/
structure LangTypeInfo where
  IsArrayType : String → Bool
  IsStringType : String → Bool
  IsFloatType : String → Bool
  GetArraySubtype : String → String

/-- The stable validation error. -/
def errInvalidEmbedderSignature : String := "invalid embedder function signature"

/-- `validateEmbedder` (after the `GetFunction` lookup succeeded): exactly one
parameter of array-of-string type and exactly one result of
array-of-array-of-float type; each check failure returns
`errInvalidEmbedderSignature`. -/
def validateEmbedder (lti : LangTypeInfo) (fn : FunctionSig) : Except String Unit :=
  match fn.parameters, fn.results with
  | [p], [r] =>
    if !lti.IsArrayType p.type || !lti.IsStringType (lti.GetArraySubtype p.type) then
      Except.error errInvalidEmbedderSignature
    else if !lti.IsArrayType r.type then
      Except.error errInvalidEmbedderSignature
    else
      let a := lti.GetArraySubtype r.type
      if !lti.IsArrayType a || !lti.IsFloatType (lti.GetArraySubtype a) then
        Except.error errInvalidEmbedderSignature
      else Except.ok ()
  | _, _ => Except.error errInvalidEmbedderSignature

/-- One search-method iteration of `UpsertToCollection`, instrumented with the
number of embedder invocations: `validateEmbedder` runs before
`wasmhost.CallFunction`, and the embedding count must match the text count.
The second component counts embedder calls. -/
def upsertSearchMethodStep (lti : LangTypeInfo) (fn : FunctionSig)
    (embed : List String → Except String (List (List ℚ))) (texts : List String) :
    Except String (List (List ℚ)) × Nat :=
  match validateEmbedder lti fn with
  | Except.error e => (Except.error e, 0)
  | Except.ok _ =>
    match embed texts with
    | Except.error e => (Except.error e, 1)
    | Except.ok vecs =>
      if vecs.length ≠ texts.length then
        (Except.error ("mismatch in number of embeddings generated by embedder " ++ fn.name), 1)
      else (Except.ok vecs, 1)

/-! ### `UpsertToCollection` key and label handling -/

/-- Key preparation in `UpsertToCollection`: an empty `keys` slice is replaced
by generated UUIDv7 keys, one per text (`genKey` stands for
`utils.GenerateUUIDv7`); a non-empty `keys` slice is used as given. -/
def upsertEffectiveKeys (keys texts : List String) (genKey : Nat → String) : List String :=
  if keys.length = 0 then (List.range texts.length).map genKey else keys

/-- The only length guard in `UpsertToCollection`:
`len(labels) != 0 && len(labels) != len(texts)` is an error. -/
def upsertLabelsGuard (texts : List String) (labels : List (List String)) : Except String Unit :=
  if labels.length ≠ 0 ∧ labels.length ≠ texts.length then
    Except.error ("mismatch in number of labels and texts: "
      ++ toString labels.length ++ " != " ++ toString texts.length)
  else Except.ok ()

/-- The indices `i` at which the id loop of `UpsertToCollection` evaluates
`keys[i]`: one per embedding, and the embedder is required to return
`len(texts)` embeddings. -/
def upsertKeyAccesses (texts : List String) : List Nat :=
  List.range texts.length

/-- All `keys[i]` accesses of the id loop are in bounds. -/
def upsertKeyAccessInBounds (keys texts : List String) : Prop :=
  ∀ i ∈ upsertKeyAccesses texts, i < keys.length

instance (keys texts : List String) : Decidable (upsertKeyAccessInBounds keys texts) := by
  unfold upsertKeyAccessInBounds
  infer_instance

/-! ### `SearchCollection`: merge, sort, truncate -/

/-- One merged search result object. -/
structure CollectionSearchResultObject where
  Namespace : String
  Key : String
  Text : String
  Distance : ℚ
  Score : ℚ
deriving DecidableEq

/-- The merge loop of `SearchCollection`: for each namespace in order, each
index result `(key, distance)` becomes an object with `Score = 1 - Distance`
and its text resolved from the namespace text map. -/
def searchMerged (namespaces : List String) (nsResults : String → List (String × ℚ))
    (textOf : String → String) : List CollectionSearchResultObject :=
  namespaces.bind fun ns =>
    (nsResults ns).map fun kd => ⟨ns, kd.1, textOf kd.1, kd.2, 1 - kd.2⟩

/-- Insertion into a list kept sorted by ascending distance (one realization
of `sort.Slice` with the `Distance <` comparator). -/
def insertByDistance (x : CollectionSearchResultObject) :
    List CollectionSearchResultObject → List CollectionSearchResultObject
  | [] => [x]
  | y :: ys => if x.Distance < y.Distance then x :: y :: ys else y :: insertByDistance x ys

/-- Sorting of the merged objects by ascending distance. -/
def sortByDistance : List CollectionSearchResultObject → List CollectionSearchResultObject
  | [] => []
  | x :: xs => insertByDistance x (sortByDistance xs)

/-- Go's `mergedObjects[:limit]` on a slice of pointers whose capacity is
`len(namespaces)*limit ≥ limit`: when `limit` exceeds the length, the slice is
extended into its zeroed capacity, exposing nil pointers (`none`); it does not
panic and it does not clamp. -/
def goReslicePointers (l : List CollectionSearchResultObject) (limit : Nat) :
    List (Option CollectionSearchResultObject) :=
  ((l.map some) ++ List.replicate (limit - l.length) none).take limit

/-- The `Objects` field returned by `SearchCollection` (after defaulting of
namespaces and a successful embed): merge, sort ascending by distance, then
`[:limit]`. -/
def searchCollectionObjects (namespaces : List String)
    (nsResults : String → List (String × ℚ)) (textOf : String → String)
    (limit : Nat) : List (Option CollectionSearchResultObject) :=
  goReslicePointers (sortByDistance (searchMerged namespaces nsResults textOf)) limit

/-! ### `NnClassify` -/

/-- One nearest neighbor returned by `vectorIndex.Search`: key and distance. -/
structure Neighbor where
  key : String
  distance : ℚ
deriving DecidableEq

/-- The neighbor count requested by `NnClassify`:
`int(math.Log10(N)) * int(math.Log10(N))` where `N` is the namespace size;
the float computation realizes `⌊log10 N⌋` for `N ≥ 1`, i.e. `Nat.log 10 N`. -/
def nnNeighborCount (n : Nat) : Nat :=
  Nat.log 10 n * Nat.log 10 n

/-- Sum of the neighbor distances. -/
def nnDistSum (nns : List Neighbor) : ℚ :=
  (nns.map Neighbor.distance).sum

/-- `mean := sum / float64(len(nns))`. -/
def nnMean (nns : List Neighbor) : ℚ :=
  nnDistSum nns / (nns.length : ℚ)

/-- The summed squared deviations `variance := Σ (d - mean)²` (the code's
`variance` variable before division). -/
def nnVarianceSum (nns : List Neighbor) : ℚ :=
  (nns.map fun nb => (nb.distance - nnMean nns) ^ 2).sum

/-- The retention test `|d - mean| <= 2*stdDev` with
`stdDev = sqrt(variance/len)`, stated in the equivalent squared form over `ℚ`
(the equivalence over `ℝ` is proved in `nnClassify_stats`). -/
def nnRetained (nns : List Neighbor) (d : ℚ) : Bool :=
  decide ((d - nnMean nns) ^ 2 * (nns.length : ℚ) ≤ 4 * nnVarianceSum nns)

/-- The neighbors kept by the retention loop, in order. -/
def nnRetainedNeighbors (nns : List Neighbor) : List Neighbor :=
  nns.filter fun nb => nnRetained nns nb.distance

/-- All labels of the retained neighbors, in retention order (`getLabels`
stands for `collNs.GetLabels`). -/
def nnClusterLabels (nns : List Neighbor) (getLabels : String → List String) : List String :=
  (nnRetainedNeighbors nns).bind fun nb => getLabels nb.key

/-- One increment of the `labelCounts` map. -/
def bumpLabel (l : String) : List (String × Nat) → List (String × Nat)
  | [] => [(l, 1)]
  | (k, c) :: rest => if k = l then (k, c + 1) :: rest else (k, c) :: bumpLabel l rest

/-- The `labelCounts` tally as an association list in first-encounter order
(the Go map holds the same multiset of label/count pairs; its iteration order
is arbitrary, which only permutes `nnLabelsBase` below). -/
def countLabels (labels : List String) : List (String × Nat) :=
  labels.foldl (fun acc l => bumpLabel l acc) []

/-- One entry of the returned `LabelsResult`. -/
structure ClassificationLabel where
  Label : String
  Confidence : ℚ
deriving DecidableEq

/-- One entry of the returned `Cluster`. -/
structure ClassificationObject where
  Key : String
  Labels : List String
  Score : ℚ
  Distance : ℚ
deriving DecidableEq

/-- The full result of `NnClassify`. -/
structure ClassificationResult where
  Collection : String
  LabelsResult : List ClassificationLabel
  SearchMethod : String
  Status : String
  Cluster : List ClassificationObject
deriving DecidableEq

/-- The label/confidence pairs before the final sort, one per distinct label
among the retained neighbors, confidence = count / totalLabels. -/
def nnLabelsBase (nns : List Neighbor) (getLabels : String → List String) :
    List ClassificationLabel :=
  (countLabels (nnClusterLabels nns getLabels)).map fun p =>
    ⟨p.1, (p.2 : ℚ) / ((nnClusterLabels nns getLabels).length : ℚ)⟩

/-- The deterministic part of `NnClassify`'s result (`LabelsResult` is listed
here before the final `sort.Slice`, whose outcome is only specified up to
`nnFinalLabelsValid`). -/
def nnClassifyCore (collectionName searchMethod : String) (nns : List Neighbor)
    (getLabels : String → List String) : ClassificationResult where
  Collection := collectionName
  LabelsResult := nnLabelsBase nns getLabels
  SearchMethod := searchMethod
  Status := "success"
  Cluster := (nnRetainedNeighbors nns).map fun nb =>
    ⟨nb.key, getLabels nb.key, 1 - nb.distance, nb.distance⟩

/-- Sorted by non-increasing confidence: the postcondition of `sort.Slice`
with the `Confidence >` comparator (which is all it guarantees — the sort is
not stable and compares nothing else). -/
def sortedByConfidenceDesc (l : List ClassificationLabel) : Prop :=
  l.Sorted fun a b => b.Confidence ≤ a.Confidence

/-- The possible final `LabelsResult` values: the Go map iteration order is
arbitrary and `sort.Slice` is unstable, so any permutation of the tally that
is sorted by non-increasing confidence can be returned. -/
def nnFinalLabelsValid (base out : List ClassificationLabel) : Prop :=
  out.Perm base ∧ sortedByConfidenceDesc out

instance (base out : List ClassificationLabel) : Decidable (nnFinalLabelsValid base out) := by
  unfold nnFinalLabelsValid sortedByConfidenceDesc List.Sorted
  infer_instance

/-! ### Pin/unpin bookkeeping of `writeClass` and `writeArray` -/

/-- The pins taken by the field/item write loop shared by `writeClass` and
`writeArray`: each entry of `results` is one `writeField` outcome — an error
(which aborts the loop), or a returned pointer (`0` for primitive fields,
which are not pinned).  A nonzero pointer is pinned; a pin failure also aborts
the loop.  The returned list is the pointers pinned by the loop, in pin
order. -/
def collectFieldPins (pinOk : Nat → Bool) : List (Except Unit Nat) → List Nat
  | [] => []
  | Except.error _ :: _ => []
  | Except.ok ptr :: rest =>
    if ptr = 0 then collectFieldPins pinOk rest
    else if pinOk ptr then ptr :: collectFieldPins pinOk rest
    else []

/-- All pointers pinned during a `writeClass` call, in pin order: nothing if
the object allocation or the object pin fails; otherwise the object offset
followed by the pins of the field loop. -/
def writeClassPins (allocOk : Bool) (objOffset : Nat) (pinOk : Nat → Bool)
    (fieldResults : List (Except Unit Nat)) : List Nat :=
  if !allocOk then []
  else if !pinOk objOffset then []
  else objOffset :: collectFieldPins pinOk fieldResults

/-- All pointers pinned during a `writeArray` call, in pin order: nothing if
the input conversion fails or the array is empty (no buffer) or the buffer
allocation or buffer pin fails; otherwise the buffer offset followed by the
pins of the item loop.  (The array object allocated after the loop is never
pinned.) -/
def writeArrayPins (convOk : Bool) (arrLen : Nat) (allocBufOk : Bool) (bufOffset : Nat)
    (pinOk : Nat → Bool) (itemResults : List (Except Unit Nat)) : List Nat :=
  if !convOk then []
  else if arrLen = 0 then []
  else if !allocBufOk then []
  else if !pinOk bufOffset then []
  else bufOffset :: collectFieldPins pinOk itemResults

/-- The deferred unpin loop shared by `writeClass` and `writeArray`: it runs on
every exit path and iterates `pins` front to back, stopping at the first
failing unpin.  The returned list is the successfully unpinned pointers in
unpin order. -/
def deferredUnpins (unpinOk : Nat → Bool) (pins : List Nat) : List Nat :=
  pins.takeWhile unpinOk

/-- Scalar JSON values: data whose first byte (in the byte-level original) is
neither `\x7b` nor `[`, i.e. the default arm of `transformValue`. -/
def jsonIsScalar : Json → Bool
  | Json.obj _ => false
  | Json.arr _ => false
  | _ => true

/-- The count recorded in a label tally for a key (`0` when absent). -/
def assocCount (acc : List (String × Nat)) (k : String) : Nat :=
  match acc.find? (fun p => p.1 = k) with
  | some p => p.2
  | none => 0

/-!
## Theorems

Supporting lemmas first, then one theorem per claim (with witnesses and
counterexamples where applicable).
-/

/-- Claim C1 (code evaluation at the failing input): with one namespace
holding a single stored vector and `limit = 2`, `SearchCollection` returns an
`Objects` slice of length 2 whose second entry is a nil pointer — the Go
reslice `mergedObjects[:limit]` extends into zeroed capacity instead of
clamping to the merged count. -/
theorem searchCollection_limit_pads_with_nil :
    searchCollectionObjects ["ns1"] (fun _ => [("k1", (1 : ℚ)/10)]) (fun _ => "hello") 2
      = [some ⟨"ns1", "k1", "hello", 1/10, 9/10⟩, none]
    ∧ (searchCollectionObjects ["ns1"] (fun _ => [("k1", (1 : ℚ)/10)]) (fun _ => "hello") 2).length = 2
    ∧ none ∈ searchCollectionObjects ["ns1"] (fun _ => [("k1", (1 : ℚ)/10)]) (fun _ => "hello") 2 := by
  refine ⟨?_, ?_, ?_⟩ <;>
    simp [searchCollectionObjects, goReslicePointers, sortByDistance, insertByDistance,
      searchMerged, List.replicate] <;>
    norm_num

/-- Claim C4 (code evaluation at the failing input): for an unregistered
function named `nope`, `callFunction` formats the whole `templateField` value
with `%s` (the struct has no `String()` method), so the emitted message is
`no function registered named \x7bnope  []\x7d`, not
`no function registered named nope`. -/
theorem loadUnknownFunction_message :
    callFunctionLookupError [] (TemplateField.mk "nope" "" [])
      = some "no function registered named \x7bnope  []\x7d"
    ∧ loadUnknownFunctionResponse [] (TemplateField.mk "nope" "" [])
      = some "\x7b\"errors\":[\x7b\"message\":\"no function registered named \x7bnope  []\x7d\",\"path\":[\"nope\"],\"extensions\":\x7b\"level\":\"error\"\x7d\x7d]\x7d"
    ∧ "no function registered named \x7bnope  []\x7d" ≠ "no function registered named nope" := by
  refine ⟨?_, ?_, by decide⟩ <;>
  · simp only [callFunctionLookupError, loadUnknownFunctionResponse, errorsOnlyResponse,
      graphQLErrorJson, goFmtTemplateField, goFmtTemplateFieldList, goFmtTemplateFieldItems,
      TemplateField.name, TemplateField.aliasName, TemplateField.fields,
      TemplateField.aliasOrName]
    decide

/-- `takeWhile` keeps the whole list when every element satisfies the
predicate. -/
theorem takeWhile_of_all {α : Type} (p : α → Bool) :
    ∀ l : List α, (∀ x ∈ l, p x = true) → l.takeWhile p = l := by
  intro l
  induction l with
  | nil => intro _; rfl
  | cons x xs ih =>
    intro h
    simp [List.takeWhile, h x (List.mem_cons_self x xs)]
    first
      | exact fun y hy => h y (List.mem_cons_of_mem x hy)
      | exact ih fun y hy => h y (List.mem_cons_of_mem x hy)

/-- Claim C8 counterexample: a `writeClass` run that pins the object offset
`100` and then a field pointer `200` unpins them as `[100, 200]` — the
deferred loop iterates the `pins` slice front to back, which is pin order,
not reverse order. -/
theorem writeClass_unpins_not_reversed :
    writeClassPins true 100 (fun _ => true) [Except.ok 200] = [100, 200]
    ∧ deferredUnpins (fun _ => true) (writeClassPins true 100 (fun _ => true) [Except.ok 200])
        = [100, 200]
    ∧ (writeClassPins true 100 (fun _ => true) [Except.ok 200]).reverse = [200, 100]
    ∧ ([100, 200] : List Nat) ≠ [200, 100] := by
  refine ⟨?_, ?_, ?_, ?_⟩ <;> decide

/-- Claim C8 as amended: on every exit path of `writeClass` and `writeArray`
(any combination of conversion, allocation, pin and field-write outcomes), if
each unpin call succeeds then every pointer pinned during the call is unpinned
before the call returns, in the same order as the pins were taken (not in
reverse order). -/
theorem write_pins_all_unpinned_in_pin_order
    (unpinOk : Nat → Bool) (hu : ∀ ptr, unpinOk ptr = true)
    (allocOk : Bool) (objOffset : Nat) (pinOk : Nat → Bool)
    (fieldResults : List (Except Unit Nat))
    (convOk : Bool) (arrLen : Nat) (allocBufOk : Bool) (bufOffset : Nat)
    (itemResults : List (Except Unit Nat)) :
    deferredUnpins unpinOk (writeClassPins allocOk objOffset pinOk fieldResults)
      = writeClassPins allocOk objOffset pinOk fieldResults
    ∧ deferredUnpins unpinOk (writeArrayPins convOk arrLen allocBufOk bufOffset pinOk itemResults)
      = writeArrayPins convOk arrLen allocBufOk bufOffset pinOk itemResults := by
  constructor <;> exact takeWhile_of_all unpinOk _ fun x _ => hu x

/-- Claim C8 amended-theorem witness at a concrete run with two pins in each
call. -/
theorem write_pins_all_unpinned_in_pin_order_witness :
    deferredUnpins (fun _ => true) (writeClassPins true 10 (fun _ => true) [Except.ok 20])
      = writeClassPins true 10 (fun _ => true) [Except.ok 20]
    ∧ deferredUnpins (fun _ => true)
        (writeArrayPins true 1 true 30 (fun _ => true) [Except.ok 40])
      = writeArrayPins true 1 true 30 (fun _ => true) [Except.ok 40] :=
  write_pins_all_unpinned_in_pin_order (fun _ => true) (fun _ => rfl)
    true 10 (fun _ => true) [Except.ok 20] true 1 true 30 [Except.ok 40]

/-- Claim C9: in `UpsertToCollection`, a non-empty `keys` slice is used as
given (no generation), the only length guard is the labels guard (empty or
same length as `texts`; `keys` is never compared to `texts`), and the id
loop's `keys[i]` accesses — one per required embedding, i.e. one per text —
are all in bounds exactly when `len(keys) ≥ len(texts)`. -/
theorem upsert_keys_positional_unvalidated
    (keys texts : List String) (labels : List (List String)) (genKey : Nat → String)
    (hne : keys ≠ []) :
    upsertEffectiveKeys keys texts genKey = keys
    ∧ (upsertLabelsGuard texts labels = Except.ok ()
        ↔ labels = [] ∨ labels.length = texts.length)
    ∧ (upsertKeyAccessInBounds keys texts ↔ texts.length ≤ keys.length) := by
  refine ⟨?_, ?_, ?_⟩
  · unfold upsertEffectiveKeys
    simp [List.length_eq_zero, hne]
  · unfold upsertLabelsGuard
    rcases labels with _ | ⟨l, ls⟩
    · simp
    · by_cases h : (l :: ls).length = texts.length <;> simp [h]
  · unfold upsertKeyAccessInBounds upsertKeyAccesses
    constructor
    · intro h
      rcases texts with _ | ⟨t, ts⟩
      · simp
      · have := h ((t :: ts).length - 1) (by simp [List.mem_range])
        omega
    · intro h i hi
      rw [List.mem_range] at hi
      omega

/-- Claim C9 witness: with two texts and a single explicit key, the guard
still passes for empty labels while the `keys[1]` access is out of bounds;
with two keys it is in bounds. -/
theorem upsert_keys_positional_unvalidated_witness :
    upsertEffectiveKeys ["k"] ["t1", "t2"] (fun _ => "u") = ["k"]
    ∧ (upsertLabelsGuard ["t1", "t2"] [] = Except.ok ()
        ↔ ([] : List (List String)) = [] ∨ ([] : List (List String)).length = ["t1", "t2"].length)
    ∧ (upsertKeyAccessInBounds ["k"] ["t1", "t2"] ↔ ["t1", "t2"].length ≤ ["k"].length) :=
  upsert_keys_positional_unvalidated ["k"] ["t1", "t2"] [] (fun _ => "u") (by decide)

/-- Claim C7: `validateEmbedder` succeeds exactly for one parameter of
array-of-string type and one result of array-of-array-of-float type; every
failing outcome is the stable `invalid embedder function signature` error; and
in the upsert pipeline a validation failure means the embedder is invoked zero
times (validation runs before any embedding call). -/
theorem validateEmbedder_signature (lti : LangTypeInfo) (fn : FunctionSig) :
    (validateEmbedder lti fn = Except.ok ()
      ↔ ∃ p r, fn.parameters = [p] ∧ fn.results = [r]
          ∧ lti.IsArrayType p.type = true
          ∧ lti.IsStringType (lti.GetArraySubtype p.type) = true
          ∧ lti.IsArrayType r.type = true
          ∧ lti.IsArrayType (lti.GetArraySubtype r.type) = true
          ∧ lti.IsFloatType (lti.GetArraySubtype (lti.GetArraySubtype r.type)) = true)
    ∧ (validateEmbedder lti fn ≠ Except.ok ()
        → validateEmbedder lti fn = Except.error errInvalidEmbedderSignature)
    ∧ (∀ embed texts,
        validateEmbedder lti fn = Except.error errInvalidEmbedderSignature
        → (upsertSearchMethodStep lti fn embed texts).2 = 0
          ∧ (upsertSearchMethodStep lti fn embed texts).1
              = Except.error errInvalidEmbedderSignature) := by
  obtain ⟨nm, params, results⟩ := fn
  refine ⟨⟨?_, ?_⟩, ?_, ?_⟩
  · intro h
    simp only [validateEmbedder] at h
    rcases params with _ | ⟨p, _ | ⟨p2, ps⟩⟩ <;>
      rcases results with _ | ⟨r, _ | ⟨r2, rs⟩⟩ <;>
      simp only [] at h <;>
      try exact Except.noConfusion h
    split_ifs at h with h1 h2 h3
    · simp at h1 h2 h3
      exact ⟨p, r, rfl, rfl, h1.1, h1.2, h2, h3.1, h3.2⟩
    all_goals exact Except.noConfusion h
  · rintro ⟨p, r, hp, hr, h1, h2, h3, h4, h5⟩
    simp only [FunctionSig.parameters, FunctionSig.results] at hp hr
    subst hp
    subst hr
    simp [validateEmbedder, h1, h2, h3, h4, h5]
  · intro hne
    simp only [validateEmbedder] at hne ⊢
    rcases params with _ | ⟨p, _ | ⟨p2, ps⟩⟩ <;>
      rcases results with _ | ⟨r, _ | ⟨r2, rs⟩⟩ <;>
      simp only [] at hne ⊢ <;>
      try rfl
    split_ifs at hne ⊢ <;> simp_all
  · intro embed texts h
    simp [upsertSearchMethodStep, h]

/-- Claim C7 witness: a concrete type info table under which
`(string[]) → f64[][]` validates, while flattening the result type makes the
same function fail with the stable error before any embedder call. -/
theorem validateEmbedder_signature_witness :
    validateEmbedder
      ⟨fun t => t = "string[]" || t = "f64[][]" || t = "f64[]",
        fun t => t = "string", fun t => t = "f32" || t = "f64",
        fun t => if t = "string[]" then "string"
          else if t = "f64[][]" then "f64[]"
          else if t = "f64[]" then "f64" else ""⟩
      ⟨"myEmbedder", [⟨"texts", "string[]"⟩], [⟨"f64[][]"⟩]⟩ = Except.ok ()
    ∧ (upsertSearchMethodStep
        ⟨fun t => t = "string[]" || t = "f64[][]" || t = "f64[]",
          fun t => t = "string", fun t => t = "f32" || t = "f64",
          fun t => if t = "string[]" then "string"
            else if t = "f64[][]" then "f64[]"
            else if t = "f64[]" then "f64" else ""⟩
        ⟨"myEmbedder", [⟨"texts", "string[]"⟩], [⟨"f64"⟩]⟩
        (fun _ => Except.ok []) ["t"]).2 = 0 := by
  constructor
  · exact (validateEmbedder_signature _ _).1.mpr
      ⟨⟨"texts", "string[]"⟩, ⟨"f64[][]"⟩, rfl, rfl, by decide, by decide, by decide,
        by decide, by decide⟩
  · exact ((validateEmbedder_signature _ _).2.2 (fun _ => Except.ok []) ["t"] (by rfl)).1

/-- Claim C3 counterexample: the line `Debug:x` starts with the prefix
`Debug:`, yet `transformError` (which splits on the first `": "`, i.e. colon
followed by a space) does not recognize it: the emitted error carries the full
line as message and no level extension, where the claim requires level
`debug` and the remainder `x`. -/
theorem transformError_prefix_without_space_unrecognized :
    leadsWith "Debug:x".data "Debug:".data = true
    ∧ transformError "fn" "Debug:x".data = ⟨"Debug:x".data, ["fn"], none⟩
    ∧ "Debug:x".data ≠ "x".data := by
  refine ⟨?_, ?_, ?_⟩ <;> decide

/-- A list always starts with its own `take`. -/
theorem leadsWith_take (s : List Char) : ∀ n : Nat, leadsWith s (s.take n) = true := by
  unfold leadsWith
  induction s with
  | nil => intro n; cases n <;> rfl
  | cons c cs ih =>
    intro n
    cases n with
    | zero => rfl
    | succ n => simp [List.take, leadsWithAux, ih n]

/-- Claim C3 as amended: `transformErrors` emits exactly one error per
non-empty line; a line starting with one of the recognized prefixes including
the following space (`Debug: `, `Info: `, `Warning: `, `Error: `, `abort: `)
yields the remainder after that prefix as message and the corresponding level
extension; a line starting with none of them yields the full line as message
and no extension. -/
theorem transformErrors_line_parsing (pathName : String) (buf : List Char)
    (rest msg : List Char) :
    (transformErrors pathName buf).length
      = ((splitLines buf).filter (fun l => !l.isEmpty)).length
    ∧ transformError pathName ("Debug: ".data ++ rest) = ⟨rest, [pathName], some "debug"⟩
    ∧ transformError pathName ("Info: ".data ++ rest) = ⟨rest, [pathName], some "info"⟩
    ∧ transformError pathName ("Warning: ".data ++ rest) = ⟨rest, [pathName], some "warning"⟩
    ∧ transformError pathName ("Error: ".data ++ rest) = ⟨rest, [pathName], some "error"⟩
    ∧ transformError pathName ("abort: ".data ++ rest) = ⟨rest, [pathName], some "fatal"⟩
    ∧ (leadsWith msg "Debug: ".data = false
        → leadsWith msg "Info: ".data = false
        → leadsWith msg "Warning: ".data = false
        → leadsWith msg "Error: ".data = false
        → leadsWith msg "abort: ".data = false
        → transformError pathName msg = ⟨msg, [pathName], none⟩) := by
  refine ⟨?_, rfl, rfl, rfl, rfl, rfl, ?_⟩
  · simp [transformErrors]
  · intro h1 h2 h3 h4 h5
    have hne : ∀ pre : List Char, leadsWith msg pre = false → ∀ n : Nat, msg.take n ≠ pre := by
      intro pre hpre n hp
      exact absurd (hp ▸ leadsWith_take msg n) (by simp [hpre])
    unfold transformError splitAfterN2
    cases hf : findSepIdx sepChars msg with
    | none => rfl
    | some i =>
      simp only [if_neg (hne _ h1 (i + 2)), if_neg (hne _ h2 (i + 2)),
        if_neg (hne _ h3 (i + 2)), if_neg (hne _ h4 (i + 2)), if_neg (hne _ h5 (i + 2))]

/-- Claim C3 amended-theorem witness at a concrete buffer and concrete
lines. -/
theorem transformErrors_line_parsing_witness :
    (transformErrors "fn" "Error: boom\n\n".data).length
      = ((splitLines "Error: boom\n\n".data).filter (fun l => !l.isEmpty)).length
    ∧ transformError "fn" ("Debug: ".data ++ "boom".data) = ⟨"boom".data, ["fn"], some "debug"⟩
    ∧ transformError "fn" ("Info: ".data ++ "boom".data) = ⟨"boom".data, ["fn"], some "info"⟩
    ∧ transformError "fn" ("Warning: ".data ++ "boom".data)
        = ⟨"boom".data, ["fn"], some "warning"⟩
    ∧ transformError "fn" ("Error: ".data ++ "boom".data) = ⟨"boom".data, ["fn"], some "error"⟩
    ∧ transformError "fn" ("abort: ".data ++ "boom".data) = ⟨"boom".data, ["fn"], some "fatal"⟩
    ∧ transformError "fn" "plain line".data = ⟨"plain line".data, ["fn"], none⟩ := by
  have h := transformErrors_line_parsing "fn" "Error: boom\n\n".data "boom".data "plain line".data
  exact ⟨h.1, h.2.1, h.2.2.1, h.2.2.2.1, h.2.2.2.2.1, h.2.2.2.2.2.1,
    h.2.2.2.2.2.2 (by decide) (by decide) (by decide) (by decide) (by decide)⟩

/-- Claim C2 counterexample: shaping the array `[5]` with a non-empty template
silently drops the failing element instead of surfacing its error; and when a
failing element follows a successful one, the comma the `ArrayEach` callback
wrote before attempting the element survives, so the emitted bytes
`[\x7b"y":1\x7d,]` are not even valid JSON. -/
theorem transformValue_array_failure_dropped :
    transformValue (Json.num "5") (TemplateField.mk "x" "" [TemplateField.mk "y" "" []])
      = Except.error "expected object or array"
    ∧ transformValue (Json.arr [Json.num "5"])
        (TemplateField.mk "x" "" [TemplateField.mk "y" "" []])
      = Except.ok "[]"
    ∧ transformValue (Json.arr [Json.obj [("y", Json.num "1")], Json.num "5"])
        (TemplateField.mk "x" "" [TemplateField.mk "y" "" []])
      = Except.ok "[\x7b\"y\":1\x7d,]" := by
  refine ⟨?_, ?_, ?_⟩ <;>
  · simp [transformValue.eq_def, transformElems.eq_def, transformFields.eq_def,
      lookupField, renderJson.eq_def, TemplateField.fields, TemplateField.aliasOrName,
      TemplateField.aliasName, TemplateField.name, List.find?, Except.map]
    try decide

/-- Unfolding one field of the comma-prefixed rendering. -/
theorem renderAllFields_cons (p : String × String) (ps : List (String × String)) :
    renderAllFields (p :: ps) = "," ++ renderFieldEntry p ++ renderAllFields ps := by
  rw [renderAllFields, renderAllFields, List.map_cons, List.foldr_cons]

/-- A string with a comma appended is never empty. -/
theorem append_comma_ne_empty (a : String) : ¬(a ++ "," = "") := by
  intro he
  have h2 := congrArg String.data he
  simp [String.data_append] at h2

/-- The object-field loop emits exactly the spec's field list — the
template's children in declaration order, keyed by alias-or-name, each value
looked up by name and recursively shaped, first failure surfaced — joined
with comma separators; the boolean only controls the leading comma. -/
theorem transformFieldsSpec_cons (m : List (String × Json)) (f : TemplateField)
    (fs : List TemplateField) :
    transformFieldsSpec m (f :: fs)
      = (lookupField m f.name).bind fun v =>
          (transformValue v f).bind fun s =>
            (transformFieldsSpec m fs).map fun ps => (f.aliasOrName, s) :: ps := by
  rw [transformFieldsSpec, transformFieldsSpec, List.foldr_cons]

/-- The string built by `transformFields` is the spec field list rendered:
with a leading separator before every entry but (when `b = true`) the
first. -/
theorem transformFields_join (m : List (String × Json)) :
    ∀ (fs : List TemplateField) (b : Bool),
      transformFields m fs b
        = (transformFieldsSpec m fs).map
            fun ps => if b then renderObjectBody ps else renderAllFields ps := by
  intro fs
  induction fs with
  | nil =>
    intro b
    rw [transformFields.eq_def, transformFieldsSpec, List.foldr_nil]
    cases b <;> rfl
  | cons f fs ih =>
    intro b
    rw [transformFields.eq_def]
    simp only []
    rw [transformFieldsSpec_cons]
    cases hl : lookupField m f.name with
    | error e => rfl
    | ok v =>
      simp only [Except.bind]
      cases hv : transformValue v f with
      | error e => rfl
      | ok sv =>
        simp only []
        rw [ih false]
        cases hs : transformFieldsSpec m fs with
        | error e => rfl
        | ok ps =>
          simp only [Except.map]
          cases b
          · rw [renderAllFields_cons, renderFieldEntry]
            simp only [String.append_assoc]
            simp
          · rw [renderObjectBody, renderFieldEntry]
            simp only [String.append_assoc]
            simp

/-- The array loop builds exactly the spec's buffer contents: failures (and
empty writes) leave no trace while the buffer is still empty, but once
something has been written every element — failing or not — contributes a
comma. -/
theorem transformElems_body (tf : TemplateField) :
    ∀ (l : List Json) (acc : String),
      transformElems l tf acc
        = if acc = "" then arrayBody (l.map fun x => (transformValue x tf).toOption)
          else acc ++ arrayTail (l.map fun x => (transformValue x tf).toOption) := by
  intro l
  induction l with
  | nil =>
    intro acc
    rw [transformElems.eq_def]
    by_cases h : acc = ""
    · subst h
      simp [arrayBody]
    · simp [if_neg h, arrayTail]
  | cons x xs ih =>
    intro acc
    rw [transformElems.eq_def]
    simp only [List.map_cons]
    by_cases h : acc = ""
    · subst h
      simp only [reduceIte]
      cases hx : transformValue x tf with
      | ok v =>
        try simp only []
        rw [show (Except.ok v : Except String String).toOption = some v from rfl,
          show ("" ++ v : String) = v from by simp, ih v]
        by_cases hv : v = ""
        · subst hv
          simp [arrayBody]
        · rw [if_neg hv]
          simp [arrayBody, hv]
      | error e =>
        try simp only []
        rw [show (Except.error e : Except String String).toOption = (none : Option String)
            from rfl, ih ""]
        simp [arrayBody]
    · simp only [if_neg h]
      cases hx : transformValue x tf with
      | ok v =>
        try simp only []
        rw [show (Except.ok v : Except String String).toOption = some v from rfl,
          ih (acc ++ "," ++ v)]
        have hne : ¬(acc ++ "," ++ v = "") := by
          intro he
          have h2 := congrArg String.data he
          simp [String.data_append] at h2
        rw [if_neg hne]
        simp [arrayTail, String.append_assoc]
      | error e =>
        try simp only []
        rw [show (Except.error e : Except String String).toOption = (none : Option String)
            from rfl, ih (acc ++ ",")]
        rw [if_neg (append_comma_ne_empty acc)]
        simp [arrayTail, String.append_assoc]

/-- Claim C2 as amended: a childless template passes the value's bytes
through; for an object the output contains exactly the keys listed in the
template, in declaration order, keyed by each child's alias-or-name, each
value looked up by name and recursively shaped, with any field failure
surfaced; a templated value that is neither object nor array fails with
`expected object or array`; but for an array, a failing element is silently
dropped rather than surfaced, and because the comma separator is written
before the element is attempted, a failure occurring after a successful
element leaves a stray comma (such as `[A,]` or `[A,,C]`), i.e. malformed
output. -/
theorem transformValue_shaping :
    (∀ tf j, tf.fields.isEmpty = true → transformValue j tf = Except.ok (renderJson j))
    ∧ (∀ tf (m : List (String × Json)), tf.fields.isEmpty = false →
        transformValue (Json.obj m) tf
          = (transformFieldsSpec m tf.fields).map
              fun ps => "\x7b" ++ renderObjectBody ps ++ "\x7d")
    ∧ (∀ tf (l : List Json), tf.fields.isEmpty = false →
        transformValue (Json.arr l) tf
          = Except.ok
              ("[" ++ arrayBody (l.map fun x => (transformValue x tf).toOption) ++ "]"))
    ∧ (∀ tf j, tf.fields.isEmpty = false → jsonIsScalar j = true →
        transformValue j tf = Except.error "expected object or array") := by
  refine ⟨?_, ?_, ?_, ?_⟩
  · intro tf j h
    rw [transformValue.eq_def, if_pos h]
  · intro tf m h
    rw [transformValue.eq_def, if_neg (by simp [h])]
    simp only []
    rw [transformFields_join m tf.fields true]
    cases hs : transformFieldsSpec m tf.fields <;> simp [Except.map]
  · intro tf l h
    rw [transformValue.eq_def, if_neg (by simp [h])]
    simp only []
    rw [transformElems_body tf l ""]
    simp
  · intro tf j h hscalar
    rw [transformValue.eq_def, if_neg (by simp [h])]
    cases j <;> first
      | rfl
      | exact absurd hscalar (by rw [jsonIsScalar.eq_def]; simp)

/-- Claim C2 amended-theorem witness at concrete values: pass-through of a
scalar under a childless template, the object law, the array law (the failing
element `5` is dropped), and the scalar failure. -/
theorem transformValue_shaping_witness :
    transformValue (Json.num "7") (TemplateField.mk "x" "" [])
      = Except.ok (renderJson (Json.num "7"))
    ∧ transformValue (Json.obj [("y", Json.str "v")])
        (TemplateField.mk "x" "" [TemplateField.mk "y" "z" []])
      = (transformFieldsSpec [("y", Json.str "v")]
            (TemplateField.mk "x" "" [TemplateField.mk "y" "z" []]).fields).map
          (fun ps => "\x7b" ++ renderObjectBody ps ++ "\x7d")
    ∧ transformValue (Json.arr [Json.num "5"])
        (TemplateField.mk "x" "" [TemplateField.mk "y" "z" []])
      = Except.ok ("[" ++ arrayBody ([Json.num "5"].map fun x =>
          (transformValue x (TemplateField.mk "x" "" [TemplateField.mk "y" "z" []])).toOption)
          ++ "]")
    ∧ transformValue (Json.num "5") (TemplateField.mk "x" "" [TemplateField.mk "y" "z" []])
      = Except.error "expected object or array" :=
  ⟨transformValue_shaping.1 _ _ (by rfl),
   transformValue_shaping.2.1 _ _ (by rfl),
   transformValue_shaping.2.2.1 _ _ (by rfl),
   transformValue_shaping.2.2.2 _ _ (by rfl) (by rfl)⟩

/-- The recorded count of the empty tally. -/
theorem assocCount_nil (k : String) : assocCount [] k = 0 := rfl

/-- The recorded count at a matching head entry. -/
theorem assocCount_cons_eq (a : String × Nat) (t : List (String × Nat)) (k : String)
    (h : a.1 = k) : assocCount (a :: t) k = a.2 := by
  simp [assocCount, List.find?, h]

/-- The recorded count skips a non-matching head entry. -/
theorem assocCount_cons_ne (a : String × Nat) (t : List (String × Nat)) (k : String)
    (h : ¬(a.1 = k)) : assocCount (a :: t) k = assocCount t k := by
  simp [assocCount, List.find?, h]

/-- Bumping a label adjusts the recorded count of exactly that label. -/
theorem assocCount_bumpLabel (l k : String) :
    ∀ acc : List (String × Nat),
      assocCount (bumpLabel l acc) k = assocCount acc k + (if k = l then 1 else 0) := by
  intro acc
  induction acc with
  | nil =>
    by_cases h : k = l
    · subst h
      rw [show bumpLabel k [] = [(k, 1)] from rfl, assocCount_cons_eq (k, 1) [] k rfl,
        assocCount_nil, if_pos rfl]
    · have h2 : ¬(l = k) := fun e => h e.symm
      rw [show bumpLabel l [] = [(l, 1)] from rfl, assocCount_cons_ne (l, 1) [] k h2,
        assocCount_nil, if_neg h]
  | cons a rest ih =>
    obtain ⟨ak, ac⟩ := a
    by_cases hal : ak = l
    · subst hal
      rw [show bumpLabel ak ((ak, ac) :: rest) = (ak, ac + 1) :: rest from by
        simp [bumpLabel]]
      by_cases hk : ak = k
      · rw [assocCount_cons_eq _ _ _ hk, assocCount_cons_eq _ _ _ hk, if_pos hk.symm]
      · rw [assocCount_cons_ne _ _ _ hk, assocCount_cons_ne _ _ _ hk,
          if_neg (fun e => hk e.symm)]
        omega
    · rw [show bumpLabel l ((ak, ac) :: rest) = (ak, ac) :: bumpLabel l rest from by
        simp [bumpLabel, hal]]
      by_cases hk : ak = k
      · rw [assocCount_cons_eq _ _ _ hk, assocCount_cons_eq _ _ _ hk,
          if_neg (fun e => hal (hk.trans e))]
        omega
      · rw [assocCount_cons_ne _ _ _ hk, assocCount_cons_ne _ _ _ hk, ih]

/-- Folding the tally over a label stream adds exactly each label's
multiplicity. -/
theorem assocCount_foldl (k : String) :
    ∀ (xs : List String) (acc : List (String × Nat)),
      assocCount (xs.foldl (fun acc l => bumpLabel l acc) acc) k
        = assocCount acc k + xs.count k := by
  intro xs
  induction xs with
  | nil => intro acc; simp
  | cons x xs ih =>
    intro acc
    rw [List.foldl_cons, ih (bumpLabel x acc), assocCount_bumpLabel x k acc,
      List.count_cons]
    by_cases h : k = x
    · simp only [h, beq_self_eq_true, if_pos]
      omega
    · have h2 : (x == k) = false := by
        simp only [beq_eq_false_iff_ne, ne_eq]
        exact fun e => h e.symm
      rw [h2, if_neg h]
      simp

/-- The tally records each label's multiplicity in the stream. -/
theorem assocCount_countLabels (xs : List String) (k : String) :
    assocCount (countLabels xs) k = xs.count k := by
  have h := assocCount_foldl k xs []
  rw [assocCount_nil] at h
  simpa [countLabels] using h

/-- The keys of a bumped tally: unchanged when the label is already present,
otherwise the label is appended. -/
theorem bumpLabel_keys (l : String) :
    ∀ acc : List (String × Nat),
      ((bumpLabel l acc).map Prod.fst = acc.map Prod.fst ∧ l ∈ acc.map Prod.fst)
        ∨ ((bumpLabel l acc).map Prod.fst = acc.map Prod.fst ++ [l]
            ∧ l ∉ acc.map Prod.fst) := by
  intro acc
  induction acc with
  | nil => right; simp [bumpLabel]
  | cons a rest ih =>
    obtain ⟨ak, ac⟩ := a
    by_cases h : ak = l
    · left
      subst h
      simp [bumpLabel]
    · rcases ih with ⟨ih1, ih2⟩ | ⟨ih1, ih2⟩
      · left
        simp [bumpLabel, h, ih1, ih2]
      · right
        have h2 : ¬(l = ak) := fun e => h e.symm
        simp [bumpLabel, h, ih1, ih2, h2]

/-- A tally has pairwise-distinct keys. -/
theorem countLabels_keys_nodup :
    ∀ (xs : List String) (acc : List (String × Nat)),
      (acc.map Prod.fst).Nodup
      → ((xs.foldl (fun acc l => bumpLabel l acc) acc).map Prod.fst).Nodup := by
  intro xs
  induction xs with
  | nil => intro acc h; simpa using h
  | cons x xs ih =>
    intro acc h
    rw [List.foldl_cons]
    apply ih
    rcases bumpLabel_keys x acc with ⟨h1, _⟩ | ⟨h1, h2⟩
    · rw [h1]; exact h
    · rw [h1]
      simp [List.nodup_append, h, h2]

/-- With distinct keys, membership in a tally determines the recorded
count. -/
theorem assocCount_of_mem_nodup :
    ∀ (acc : List (String × Nat)) (p : String × Nat),
      p ∈ acc → (acc.map Prod.fst).Nodup → assocCount acc p.1 = p.2 := by
  intro acc
  induction acc with
  | nil => intro p hp; exact absurd hp (List.not_mem_nil p)
  | cons a rest ih =>
    intro p hp hnd
    rw [List.map_cons, List.nodup_cons] at hnd
    rcases List.mem_cons.mp hp with rfl | hp2
    · exact assocCount_cons_eq p rest p.1 rfl
    · have hne : ¬(a.1 = p.1) := by
        intro e
        exact hnd.1 (by rw [e]; exact List.mem_map.mpr ⟨p, hp2, rfl⟩)
      rw [assocCount_cons_ne a rest p.1 hne]
      exact ih p hp2 hnd.2

/-- Every entry of the tally of a label stream carries that label's
multiplicity. -/
theorem countLabels_mem_count (xs : List String) (p : String × Nat)
    (hp : p ∈ countLabels xs) : p.2 = xs.count p.1 := by
  have h1 := assocCount_of_mem_nodup (countLabels xs) p hp
    (countLabels_keys_nodup xs [] (by simp))
  rw [assocCount_countLabels] at h1
  exact h1.symm

/-- Squared-comparison characterization of the two-standard-deviation test. -/
theorem abs_le_two_sqrt_iff (x y : ℝ) (hy : 0 ≤ y) :
    |x| ≤ 2 * Real.sqrt y ↔ x ^ 2 ≤ 4 * y := by
  rw [show (2 : ℝ) * Real.sqrt y = Real.sqrt (4 * y) from by
      rw [show (4 : ℝ) * y = 2 ^ 2 * y from by ring,
        Real.sqrt_mul (by positivity) y, Real.sqrt_sq (by norm_num : (0 : ℝ) ≤ 2)],
    Real.le_sqrt (abs_nonneg x) (by positivity), sq_abs]

/-- Claim C5: `NnClassify` queries `k = (⌊log10 N⌋)²` neighbors; over the
`k` returned distances it uses the mean and the population standard deviation
(summed squared deviations divided by `k`, not `k−1`); a neighbor is retained
exactly when `|d − μ| ≤ 2σ`; and every returned label's confidence is its
count among the retained neighbors' labels divided by the total number of
retained labels. -/
theorem nnClassify_stats (N : Nat) (nns : List Neighbor)
    (getLabels : String → List String)
    (hN : 1 ≤ N) (hk : nns.length = nnNeighborCount N) :
    nnNeighborCount N = Nat.log 10 N ^ 2
    ∧ (∀ nb ∈ nns,
        (nnRetained nns nb.distance = true
          ↔ |(nb.distance : ℝ) - ((nnMean nns : ℚ) : ℝ)|
              ≤ 2 * Real.sqrt (((nnVarianceSum nns : ℚ) : ℝ) / (nns.length : ℝ))))
    ∧ (∀ lb ∈ nnLabelsBase nns getLabels,
        lb.Confidence
          = ((nnClusterLabels nns getLabels).count lb.Label : ℚ)
              / ((nnClusterLabels nns getLabels).length : ℚ)) := by
  refine ⟨by rw [nnNeighborCount, pow_two], ?_, ?_⟩
  · intro nb hnb
    have hlen : 0 < nns.length := List.length_pos.mpr (List.ne_nil_of_mem hnb)
    have hn0 : (0 : ℝ) < (nns.length : ℝ) := by exact_mod_cast hlen
    have hV : 0 ≤ nnVarianceSum nns := by
      apply List.sum_nonneg
      intro x hx
      rw [List.mem_map] at hx
      obtain ⟨y, _, rfl⟩ := hx
      exact sq_nonneg _
    have hVr : (0 : ℝ) ≤ ((nnVarianceSum nns : ℚ) : ℝ) := by exact_mod_cast hV
    rw [nnRetained, decide_eq_true_iff,
      abs_le_two_sqrt_iff _ _ (by positivity),
      show (4 : ℝ) * (((nnVarianceSum nns : ℚ) : ℝ) / (nns.length : ℝ))
          = (4 * ((nnVarianceSum nns : ℚ) : ℝ)) / (nns.length : ℝ) from by ring,
      le_div_iff₀ hn0]
    constructor
    · intro h; exact_mod_cast h
    · intro h; exact_mod_cast h
  · intro lb hlb
    rw [nnLabelsBase, List.mem_map] at hlb
    obtain ⟨p, hp, rfl⟩ := hlb
    simp only []
    rw [countLabels_mem_count (nnClusterLabels nns getLabels) p hp]

/-- Claim C5 witness at a namespace of size 100 (so `k = 2² = 4`) and four
concrete neighbors. -/
theorem nnClassify_stats_witness :
    nnNeighborCount 100 = Nat.log 10 100 ^ 2
    ∧ ((nnRetained [⟨"k1", 1⟩, ⟨"k2", 1⟩, ⟨"k3", 1⟩, ⟨"k4", 1⟩]
          (Neighbor.mk "k1" 1).distance = true)
        ↔ |((Neighbor.mk "k1" 1).distance : ℝ)
              - ((nnMean [⟨"k1", 1⟩, ⟨"k2", 1⟩, ⟨"k3", 1⟩, ⟨"k4", 1⟩] : ℚ) : ℝ)|
            ≤ 2 * Real.sqrt
                (((nnVarianceSum [⟨"k1", 1⟩, ⟨"k2", 1⟩, ⟨"k3", 1⟩, ⟨"k4", 1⟩] : ℚ) : ℝ)
                  / (([⟨"k1", 1⟩, ⟨"k2", 1⟩, ⟨"k3", 1⟩, ⟨"k4", 1⟩] : List Neighbor).length
                      : ℝ))) := by
  have hlog : Nat.log 10 100 = 2 :=
    Nat.log_eq_of_pow_le_of_lt_pow (by norm_num) (by norm_num)
  have h := nnClassify_stats 100 [⟨"k1", 1⟩, ⟨"k2", 1⟩, ⟨"k3", 1⟩, ⟨"k4", 1⟩]
    (fun _ => ["a"]) (by norm_num) (by simp [nnNeighborCount, hlog])
  exact ⟨h.1, h.2.1 ⟨"k1", 1⟩ (by simp)⟩

/-- Claim C6 counterexample: with two retained neighbors labeled `a` and `b`
(equal confidence 1/2), both orders of the final `LabelsResult` are valid
outcomes of the Go map iteration plus the unstable confidence-only
`sort.Slice`, so the result is neither deterministic nor tie-broken by the
label string. -/
theorem nnClassify_labels_nondeterministic :
    nnFinalLabelsValid
        (nnLabelsBase [⟨"k1", 0⟩, ⟨"k2", 0⟩] (fun k => if k = "k1" then ["a"] else ["b"]))
        [⟨"a", 1/2⟩, ⟨"b", 1/2⟩]
    ∧ nnFinalLabelsValid
        (nnLabelsBase [⟨"k1", 0⟩, ⟨"k2", 0⟩] (fun k => if k = "k1" then ["a"] else ["b"]))
        [⟨"b", 1/2⟩, ⟨"a", 1/2⟩]
    ∧ ([⟨"a", (1 : ℚ)/2⟩, ⟨"b", 1/2⟩] : List ClassificationLabel)
        ≠ [⟨"b", 1/2⟩, ⟨"a", 1/2⟩] := by
  have hbase : nnLabelsBase [⟨"k1", 0⟩, ⟨"k2", 0⟩]
      (fun k => if k = "k1" then ["a"] else ["b"])
      = [⟨"a", 1/2⟩, ⟨"b", 1/2⟩] := by
    norm_num +decide [nnLabelsBase, nnClusterLabels, nnRetainedNeighbors, nnRetained,
      nnMean, nnDistSum, nnVarianceSum, countLabels, bumpLabel, List.filter, List.bind]
  refine ⟨?_, ?_, ?_⟩
  · rw [hbase]
    exact ⟨List.Perm.refl _,
      by norm_num [sortedByConfidenceDesc, List.Sorted, List.pairwise_cons]⟩
  · rw [hbase]
    exact ⟨List.Perm.swap _ _ _,
      by norm_num [sortedByConfidenceDesc, List.Sorted, List.pairwise_cons]⟩
  · simp [ClassificationLabel.mk.injEq]

/-- Claim C6 as amended: a final `LabelsResult` is a permutation of the tally
sorted by non-increasing confidence; it is uniquely determined (hence
deterministic) only when all confidences are pairwise distinct — equal
confidences can appear in either order, with no label-string tie-break. -/
theorem nnClassify_labels_sorted_desc (base o1 o2 : List ClassificationLabel)
    (hdist : base.Pairwise fun a b => a.Confidence ≠ b.Confidence)
    (h1 : nnFinalLabelsValid base o1) (h2 : nnFinalLabelsValid base o2) :
    sortedByConfidenceDesc o1 ∧ o1.Perm base ∧ o1 = o2 := by
  obtain ⟨hp1, hs1⟩ := h1
  obtain ⟨hp2, hs2⟩ := h2
  refine ⟨hs1, hp1, ?_⟩
  have hd1 : o1.Pairwise (fun a b => a.Confidence ≠ b.Confidence) :=
    (hp1.pairwise_iff fun h => h.symm).mpr hdist
  have hd2 : o2.Pairwise (fun a b => a.Confidence ≠ b.Confidence) :=
    (hp2.pairwise_iff fun h => h.symm).mpr hdist
  have hst1 : o1.Pairwise (fun a b => b.Confidence < a.Confidence) :=
    (hs1.and hd1).imp fun h => lt_of_le_of_ne h.1 h.2.symm
  have hst2 : o2.Pairwise (fun a b => b.Confidence < a.Confidence) :=
    (hs2.and hd2).imp fun h => lt_of_le_of_ne h.1 h.2.symm
  haveI : IsAntisymm ClassificationLabel (fun a b => b.Confidence < a.Confidence) :=
    ⟨fun a b hab hba => absurd (lt_trans hab hba) (lt_irrefl _)⟩
  exact List.eq_of_perm_of_sorted (hp1.trans hp2.symm) hst1 hst2

/-- Claim C6 amended-theorem witness at a two-label tally with distinct
confidences. -/
theorem nnClassify_labels_sorted_desc_witness :
    sortedByConfidenceDesc [⟨"a", (2 : ℚ)/3⟩, ⟨"b", 1/3⟩]
    ∧ ([⟨"a", (2 : ℚ)/3⟩, ⟨"b", 1/3⟩] : List ClassificationLabel).Perm
        [⟨"a", 2/3⟩, ⟨"b", 1/3⟩]
    ∧ ([⟨"a", (2 : ℚ)/3⟩, ⟨"b", 1/3⟩] : List ClassificationLabel)
        = [⟨"a", 2/3⟩, ⟨"b", 1/3⟩] :=
  nnClassify_labels_sorted_desc [⟨"a", 2/3⟩, ⟨"b", 1/3⟩] _ _
    (by norm_num [List.pairwise_cons])
    ⟨List.Perm.refl _,
      by norm_num [sortedByConfidenceDesc, List.Sorted, List.pairwise_cons]⟩
    ⟨List.Perm.refl _,
      by norm_num [sortedByConfidenceDesc, List.Sorted, List.pairwise_cons]⟩

/-- Claim C10: for a namespace of size `1 ≤ N ≤ 9`, `NnClassify` requests
`k = ⌊log10 N⌋·⌊log10 N⌋ = 0` neighbors, so (the index returning at most `k`
results) no neighbors are retrieved and the result has an empty `Cluster`, an
empty `LabelsResult`, and status `success`. -/
theorem nnClassify_small_namespace (N : Nat) (nns : List Neighbor)
    (getLabels : String → List String) (collectionName searchMethod : String)
    (h1 : 1 ≤ N) (h9 : N ≤ 9) (hle : nns.length ≤ nnNeighborCount N) :
    nnNeighborCount N = 0
    ∧ nns = []
    ∧ (nnClassifyCore collectionName searchMethod nns getLabels).Cluster = []
    ∧ (nnClassifyCore collectionName searchMethod nns getLabels).LabelsResult = []
    ∧ (nnClassifyCore collectionName searchMethod nns getLabels).Status = "success" := by
  have hlog : Nat.log 10 N = 0 := Nat.log_eq_zero_iff.mpr (Or.inl (by omega))
  have hk : nnNeighborCount N = 0 := by simp [nnNeighborCount, hlog]
  rw [hk] at hle
  have hnil : nns = [] := List.length_eq_zero.mp (by omega)
  subst hnil
  refine ⟨hk, rfl, ?_, ?_, rfl⟩
  · simp [nnClassifyCore, nnRetainedNeighbors]
  · simp [nnClassifyCore, nnLabelsBase, nnClusterLabels, nnRetainedNeighbors, countLabels]

/-- Claim C10 witness at namespace size 5 and the (necessarily empty)
neighbor list. -/
theorem nnClassify_small_namespace_witness :
    nnNeighborCount 5 = 0
    ∧ ([] : List Neighbor) = []
    ∧ (nnClassifyCore "coll" "sm" [] (fun _ => [])).Cluster = []
    ∧ (nnClassifyCore "coll" "sm" [] (fun _ => [])).LabelsResult = []
    ∧ (nnClassifyCore "coll" "sm" [] (fun _ => [])).Status = "success" :=
  nnClassify_small_namespace 5 [] (fun _ => []) "coll" "sm" (by norm_num) (by norm_num)
    (Nat.zero_le _)


end Modus
